import Mathlib

/-!
# anttp-monitor: verification of the client-side state machine

Shallow embedding of the core of `src/main.rs`: the Duration Calculator
(`compute_durations`, `format_duration_ms`), the Filter Engine
(`App.filtered_commands`), the Selection Navigator (`App.next`,
`App.previous`), identifier shortening (`format_id`), the refresh step
(`App.refresh_commands`) and the key-input transition of `run_app`
(`handleKey`), together with a small event-trace semantics (`step`, `run`)
for reachability arguments.

Modelling conventions:
* `u64` millisecond instants become `Nat`; the Rust `u64::saturating_sub`
  clamps at zero, which is exactly truncated `Nat` subtraction.
* The protobuf `Command` record carries `waiting_at : u64` (zero meaning
  unset) and `running_at`, `terminated_at : Option u64`, as used at the
  call sites of `compute_durations` in `ui`.
* Strings are Lean `String`s (lists of characters). State labels are
  compared through `to_ascii_lowercase` and `==`, where byte-wise and
  character-wise agree on every valid UTF-8 string. Identifier
  shortening, by contrast, slices raw bytes, so it is modelled on the
  UTF-8 byte sequence (`stringUtf8`) with the slicing panic as `none`.
* `format!("{secs:.3}")` on `ms as f64 / 1000.0` renders the exact
  3-decimal expansion of `ms / 1000` for the magnitudes involved
  (`ms < 2^52`); we embed that exact decimal rendering directly.
* The gRPC client is reduced to its observable shape: an optional
  connection (`client : Option Unit`) and, per refresh, an oracle response
  `Except Unit (List Command)` standing for `get_commands` succeeding
  with a job list or failing.
* Terminal drawing and the timing of ticks are glue outside the core
  (spec §1) and are not modelled; a refresh is an event in the trace.
-/

/-- Enumeration `FilterMode` from `src/main.rs`: which job states are visible. -/
inductive FilterMode where
  | Default
  | Waiting
  | Running
  | Completed
  | Aborted
  | All
deriving DecidableEq, Repr

/-- The protobuf `Command` record as the program consumes it: identifier,
display name, state label, lifecycle timestamps in epoch milliseconds
(`waiting_at` zero-is-unset, the other two optional), and ordered
name/value property pairs. -/
structure Command where
  id : String
  name : String
  state : String
  waiting_at : Nat
  running_at : Option Nat
  terminated_at : Option Nat
  properties : List (String × String)
deriving DecidableEq, Repr

/-- Rust `u8::to_ascii_lowercase` lifted to a character: maps `A`–`Z` to
`a`–`z` and leaves everything else unchanged. -/
def charToAsciiLowercase (c : Char) : Char :=
  if 'A' ≤ c ∧ c ≤ 'Z' then Char.ofNat (c.toNat + 32) else c

/-- Rust `str::to_ascii_lowercase`: lowercase every ASCII letter. -/
def toAsciiLowercase (s : String) : String :=
  String.mk (s.data.map charToAsciiLowercase)

/-- The `App` struct of `src/main.rs` restricted to its observable state:
the job collection, the table cursor (`table_state.selected()`), the
active filter mode, the detached detail snapshot (`selected_command`),
and whether a client connection exists. -/
structure App where
  commands : List Command
  cursor : Option Nat
  filter_mode : FilterMode
  selected_command : Option Command
  client : Option Unit
deriving DecidableEq, Repr

/-- Constructor `App::new`: empty job list, default cursor (no selection), `Default`
filter mode, no detail snapshot. -/
def App.new (client : Option Unit) : App :=
  { commands := []
    cursor := none
    filter_mode := FilterMode.Default
    selected_command := none
    client := client }

/-- Method `App::filtered_commands`: keep, in source order, the jobs whose
ASCII-lowercased state matches the active filter mode. -/
def App.filtered_commands (app : App) : List Command :=
  app.commands.filter (fun c =>
    let state := toAsciiLowercase c.state
    match app.filter_mode with
    | FilterMode.Default => state == "waiting" || state == "running"
    | FilterMode.Waiting => state == "waiting"
    | FilterMode.Running => state == "running"
    | FilterMode.Completed => state == "completed"
    | FilterMode.Aborted => state == "aborted"
    | FilterMode.All => true)

/-- Method `App::next`: wrap-around advance of the cursor over the filtered
list; clears the cursor when the filtered list is empty. -/
def App.next (app : App) : App :=
  let count := app.filtered_commands.length
  if count = 0 then
    { app with cursor := none }
  else
    let i : Nat :=
      match app.cursor with
      | some i => if i ≥ count - 1 then 0 else i + 1
      | none => 0
    { app with cursor := some i }

/-- Method `App::previous`: wrap-around retreat of the cursor over the filtered
list; clears the cursor when the filtered list is empty. The source expression
`count.saturating_sub(1)` is `count - 1` on `Nat`. -/
def App.previous (app : App) : App :=
  let count := app.filtered_commands.length
  if count = 0 then
    { app with cursor := none }
  else
    let i : Nat :=
      match app.cursor with
      | some i => if i = 0 then count - 1 else i - 1
      | none => 0
    { app with cursor := some i }

/-- Method `App::refresh_commands`, with the network round trip abstracted into
the `response` oracle: with no client nothing happens; with a client a
successful response replaces the whole job collection and an error (the
`?` on `get_commands`) leaves the state untouched. -/
def App.refresh_commands (app : App) (response : Except Unit (List Command)) : App :=
  match app.client with
  | some _ =>
    match response with
    | Except.ok cmds => { app with commands := cmds }
    | Except.error _ => app
  | none => app

/-- Encoding of one character as its UTF-8 bytes, as a Rust `str` stores
it. -/
def utf8Bytes (c : Char) : List Nat :=
  let n := c.toNat
  if n < 0x80 then [n]
  else if n < 0x800 then [0xC0 + n / 0x40, 0x80 + n % 0x40]
  else if n < 0x10000 then
    [0xE0 + n / 0x1000, 0x80 + (n / 0x40) % 0x40, 0x80 + n % 0x40]
  else
    [0xF0 + n / 0x40000, 0x80 + (n / 0x1000) % 0x40,
     0x80 + (n / 0x40) % 0x40, 0x80 + n % 0x40]

/-- The UTF-8 byte sequence of a string: what `id.len()` and the byte
slices of the source actually operate on. -/
def stringUtf8 (s : String) : List Nat :=
  (s.data.map utf8Bytes).flatten

/-- Rust `str::is_char_boundary` on a UTF-8 byte sequence: offset `p` is
a boundary when the byte there is not a continuation byte, or `p` is
exactly the length (offset 0 is covered by the first disjunct, since a
leading byte is never a continuation byte). -/
def isCharBoundary (l : List Nat) (p : Nat) : Bool :=
  match l[p]? with
  | some b => decide (b < 0x80) || decide (0xC0 ≤ b)
  | none => decide (p = l.length)

/-- Function `format_id` at the byte level of the source: `id.len()` is
the UTF-8 byte length, and for a longer identifier the slices `&id[..3]`
and `&id[id.len() - 3..]` demand that offsets `3` and `len - 3` fall on
character boundaries — otherwise the program panics, modelled as `none`.
`0x2E` is the byte of the ASCII dot. -/
def format_id (id : List Nat) : Option (List Nat) :=
  if id.length ≤ 6 then
    some id
  else if isCharBoundary id 3 && isCharBoundary id (id.length - 3) then
    some (id.take 3 ++ [0x2E, 0x2E] ++ id.drop (id.length - 3))
  else
    none

/-- Zero-pad a sub-second millisecond remainder to width 3. -/
def pad3 (n : Nat) : String :=
  if n < 10 then "00" ++ toString n
  else if n < 100 then "0" ++ toString n
  else toString n

/-- Function `format_duration_ms`: the source renders `ms as f64 / 1000.0` with
`{:.3}`; for every argument below `2^52` that is the exact decimal
expansion of `ms` milliseconds in seconds with 3 decimal places, embedded
here directly. -/
def format_duration_ms (ms : Nat) : String :=
  toString (ms / 1000) ++ "." ++ pad3 (ms % 1000)

/-- Operation `u64::saturating_sub`: subtraction clamped at zero, which is the
truncated subtraction of `Nat`. -/
def saturating_sub (a b : Nat) : Nat := a - b

/-- Function `compute_durations` from `src/main.rs`: the three display strings
(waiting, running, completed/aborted-ago) derived from the lifecycle
timestamps and the current instant. A timestamp `≤ 0` is filtered out as
unset; each elapsed time uses `saturating_sub`. -/
def compute_durations (waiting_at running_at terminated_at : Option Nat)
    (now_ms : Nat) : String × String × String :=
  let waiting_str :=
    match waiting_at.filter (fun w => decide (0 < w)) with
    | some w =>
      let e := (running_at.filter (fun r => decide (0 < r))).getD now_ms
      format_duration_ms (saturating_sub e w)
    | none => "-"
  let running_str :=
    match running_at.filter (fun r => decide (0 < r)) with
    | some r =>
      let e := (terminated_at.filter (fun t => decide (0 < t))).getD now_ms
      format_duration_ms (saturating_sub e r)
    | none => "-"
  let completed_str :=
    match terminated_at.filter (fun t => decide (0 < t)) with
    | some t => format_duration_ms (saturating_sub now_ms t)
    | none => "-"
  (waiting_str, running_str, completed_str)

/-- Abstract key inputs of `run_app`: `down` stands for Down/`j`, `up`
for Up/`k`, and `other` for any key the loop ignores. -/
inductive Key where
  | q
  | down
  | up
  | enter
  | left
  | backspace
  | w
  | r
  | c
  | b
  | a
  | d
  | other
deriving DecidableEq, Repr

/-- The six direct filter-mode selector keys. -/
def isModeKey : Key → Bool
  | Key.w | Key.r | Key.c | Key.b | Key.a | Key.d => true
  | _ => false

/-- The `DetailOpen` arm of the key handling in `run_app`: Enter, Left
and Backspace discard the snapshot; every other key is ignored and the
iteration ends with `continue`. -/
def handleDetailKey (app : App) (k : Key) : App × Bool :=
  match k with
  | Key.enter | Key.left | Key.backspace =>
    ({ app with selected_command := none }, false)
  | _ => (app, false)

/-- The `Browsing` arm of the key match in `run_app` (reached only when
no snapshot is open). -/
def handleBrowseKey (app : App) (k : Key) : App × Bool :=
  match k with
    | Key.q => (app, true)
    | Key.down => (app.next, false)
    | Key.up => (app.previous, false)
    | Key.enter =>
      let filtered := app.filtered_commands
      match app.cursor with
      | some index =>
        match filtered[index]? with
        | some cmd => ({ app with selected_command := some cmd }, false)
        | none => (app, false)
      | none => (app, false)
    | Key.w => ({ app with filter_mode := FilterMode.Waiting, cursor := some 0 }, false)
    | Key.r => ({ app with filter_mode := FilterMode.Running, cursor := some 0 }, false)
    | Key.c => ({ app with filter_mode := FilterMode.Completed, cursor := some 0 }, false)
    | Key.b => ({ app with filter_mode := FilterMode.Aborted, cursor := some 0 }, false)
    | Key.a => ({ app with filter_mode := FilterMode.All, cursor := some 0 }, false)
    | Key.d => ({ app with filter_mode := FilterMode.Default, cursor := some 0 }, false)
    | Key.left | Key.backspace | Key.other => (app, false)

/-- The key-event branch of `run_app`: when a detail snapshot is open,
Enter/Left/Backspace discard it and everything else is ignored
(`continue`); otherwise `q` quits, Down/Up navigate, Enter captures the
selected filtered job as a snapshot when the cursor indexes into the
filtered list, and the six mode keys switch the filter mode and select
row 0. Returns the new state and whether the loop terminates. -/
def handleKey (app : App) (k : Key) : App × Bool :=
  match app.selected_command with
  | some _ => handleDetailKey app k
  | none => handleBrowseKey app k

/-- One observable event of the poll loop: a key input, or a due refresh
together with the response of the data source. -/
inductive Ev where
  | key (k : Key)
  | refresh (r : Except Unit (List Command))

/-- State transition of one loop iteration for an event. A refresh never
terminates the loop (its error is discarded with `let _ = ...`). -/
def step (app : App) (e : Ev) : App × Bool :=
  match e with
  | Ev.key k => handleKey app k
  | Ev.refresh r => (app.refresh_commands r, false)

/-- Run the loop over a trace of events, stopping at a quit. -/
def run (app : App) : List Ev → App × Bool
  | [] => (app, false)
  | e :: es =>
    let (a, quit) := step app e
    if quit then (a, true) else run a es

/-- The §3 cursor invariant: the cursor is `none` or a valid index into
the filtered list computed from the current job collection. -/
def cursorInvariant (app : App) : Prop :=
  ∀ i, app.cursor = some i → i < app.filtered_commands.length

instance (app : App) : Decidable (cursorInvariant app) := by
  unfold cursorInvariant
  cases h : app.cursor with
  | none => exact isTrue (by intro i hi; cases hi)
  | some j =>
    by_cases hj : j < app.filtered_commands.length
    · exact isTrue (by intro i hi; cases hi; exact hj)
    · exact isFalse (by intro hinv; exact hj (hinv j rfl))

/-! ## Reference definitions taken from the wording of the spec -/

/-- Spec §4.1: a timestamp is "unset" when absent or equal to zero; otherwise
it carries its value. -/
def setVal (x : Option Nat) : Option Nat :=
  match x with
  | some v => if 0 < v then some v else none
  | none => none

/-- The §4.1 reference Duration Calculator, written from the words of
the spec: each duration is `"-"` when its anchor timestamp is unset,
otherwise the clamped difference between the next set stage (or `now_ms`)
and the anchor, rendered as seconds with 3 decimal places. -/
def spec_durations (waiting_at running_at terminated_at : Option Nat)
    (now_ms : Nat) : String × String × String :=
  let waiting :=
    match setVal waiting_at with
    | some w =>
      let e := match setVal running_at with | some r => r | none => now_ms
      format_duration_ms (e - w)
    | none => "-"
  let running :=
    match setVal running_at with
    | some r =>
      let e := match setVal terminated_at with | some t => t | none => now_ms
      format_duration_ms (e - r)
    | none => "-"
  let terminal :=
    match setVal terminated_at with
    | some t => format_duration_ms (now_ms - t)
    | none => "-"
  (waiting, running, terminal)

/-- The §4.2 filter predicate, written from the words of the spec: compare the
state case-insensitively; `Default` matches "waiting" or "running", the
four named modes match their single state, `All` matches everything. -/
def specStateMatches (mode : FilterMode) (state : String) : Bool :=
  let s := toAsciiLowercase state
  match mode with
  | FilterMode.Default => s == "waiting" || s == "running"
  | FilterMode.Waiting => s == "waiting"
  | FilterMode.Running => s == "running"
  | FilterMode.Completed => s == "completed"
  | FilterMode.Aborted => s == "aborted"
  | FilterMode.All => true

/-! ## Concrete fixtures used in examples and counterexamples -/

/-- A job sitting in state `Waiting`. -/
def exJob1 : Command :=
  { id := "j1", name := "job one", state := "Waiting",
    waiting_at := 1, running_at := none, terminated_at := none, properties := [] }

/-- A job in state `Running`. -/
def exJob2 : Command :=
  { id := "j2", name := "job two", state := "Running",
    waiting_at := 1, running_at := some 2, terminated_at := none, properties := [] }

/-- A job in state `Completed`. -/
def exJob3 : Command :=
  { id := "j3", name := "job three", state := "Completed",
    waiting_at := 1, running_at := some 2, terminated_at := some 3, properties := [] }

/-! ## Claims -/

/-- C3: the Duration Calculator of the source agrees with the §4.1
reference definition on all inputs, and the three §8 concrete scenarios
produce exactly the listed strings. -/
theorem duration_calculator_meets_spec :
    (∀ w r t now, compute_durations w r t now = spec_durations w r t now) ∧
    compute_durations (some 1770836575) none none 1770846698 = ("10.123", "-", "-") ∧
    compute_durations (some 1770810000) (some 1770820000) none 1770840000 =
      ("10.000", "20.000", "-") ∧
    compute_durations (some 1770810000) (some 1770820000) (some 1770830000) 1770850000 =
      ("10.000", "10.000", "20.000") := by
  refine ⟨?_, by decide, by decide, by decide⟩
  intro w r t now
  cases w <;> cases r <;> cases t <;>
    simp [compute_durations, spec_durations, setVal, saturating_sub, Option.filter] <;>
    split_ifs <;> and_intros <;> rfl

/-- C4: the Selection Navigator meets its §4.3 contract for every cursor
value and filtered-list length: empty list clears the cursor; `advance`
sends `none` to `0` and `some i` to `i+1` when `i+1 < length`, else `0`;
`retreat` sends `none` to `0`, `some 0` to `length-1`, and `some i` to
`i-1` otherwise. -/
theorem selection_navigator_contract (app : App) :
    (app.filtered_commands.length = 0 →
      app.next.cursor = none ∧ app.previous.cursor = none) ∧
    (0 < app.filtered_commands.length → app.cursor = none →
      app.next.cursor = some 0 ∧ app.previous.cursor = some 0) ∧
    (∀ i, 0 < app.filtered_commands.length → app.cursor = some i →
      app.next.cursor =
        some (if i + 1 < app.filtered_commands.length then i + 1 else 0) ∧
      app.previous.cursor =
        some (if i = 0 then app.filtered_commands.length - 1 else i - 1)) := by
  refine ⟨?_, ?_, ?_⟩
  · intro h
    simp [App.next, App.previous, h]
  · intro h hc
    have h0 : app.filtered_commands.length ≠ 0 := Nat.pos_iff_ne_zero.mp h
    simp [App.next, App.previous, h0, hc]
  · intro i h hc
    have h0 : app.filtered_commands.length ≠ 0 := Nat.pos_iff_ne_zero.mp h
    simp [App.next, App.previous, h0, hc]
    split_ifs <;> first | rfl | omega

/-- C4 witness: on a filtered list of length 3 (three `All`-visible
jobs), `advance` from the last valid index 2 wraps to `some 0` and
`retreat` from `some 0` wraps to `some 2`. -/
theorem selection_navigator_contract_witness :
    ({ App.new none with
        commands := [exJob1, exJob2, exJob3],
        filter_mode := FilterMode.All,
        cursor := some 2 }).next.cursor = some (if 2 + 1 < 3 then 2 + 1 else 0) ∧
    ({ App.new none with
        commands := [exJob1, exJob2, exJob3],
        filter_mode := FilterMode.All,
        cursor := some 0 }).previous.cursor = some (if 0 = 0 then 3 - 1 else 0 - 1) := by
  constructor
  · exact ((selection_navigator_contract _).2.2 2 (by decide) rfl).1
  · exact ((selection_navigator_contract _).2.2 0 (by decide) rfl).2

/-- C5: the Filter Engine returns exactly the ordered sub-sequence of the
job collection whose case-insensitively compared state satisfies the
predicate of the active mode — it equals a `List.filter` by the predicate of the spec (hence keeps exactly the matching jobs), it is a sub-sequence
of the source list (hence source order is preserved), and on the §8
example (mode `Waiting` over states `Waiting`/`Running`/`Completed`)
exactly the first job remains. -/
theorem filter_engine_meets_spec :
    (∀ app : App, app.filtered_commands =
      app.commands.filter (fun c => specStateMatches app.filter_mode c.state)) ∧
    (∀ app : App, List.Sublist app.filtered_commands app.commands) ∧
    ({ App.new none with
        commands := [exJob1, exJob2, exJob3],
        filter_mode := FilterMode.Waiting }).filtered_commands = [exJob1] := by
  have hfilter : ∀ app : App, app.filtered_commands =
      app.commands.filter (fun c => specStateMatches app.filter_mode c.state) := by
    intro app
    rcases app with ⟨cmds, cur, mode, sel, cl⟩
    cases mode <;> rfl
  refine ⟨hfilter, ?_, by decide⟩
  intro app
  rw [hfilter]
  exact List.filter_sublist app.commands

/-- C6: a failing "get current jobs" response leaves the whole `App`
state — job list, filter mode, cursor, detail snapshot — unchanged, and
the loop does not terminate on it (the error is discarded, so the next
due tick will simply try again). -/
theorem refresh_failure_preserves_state (app : App) :
    step app (Ev.refresh (Except.error ())) = (app, false) := by
  rcases app with ⟨cmds, cur, mode, sel, cl⟩
  cases cl <;> rfl

/-- C7: every elapsed-time subtraction in the Duration Calculator is
clamped at zero — each of the three outputs is either `"-"` or the
rendering of a non-negative integer millisecond value, and whenever the
operands are inconsistent (the chosen end instant is not after the start
instant) the rendered duration is exactly that of zero milliseconds. -/
theorem durations_never_underflow :
    (∀ w r t now,
      ((compute_durations w r t now).1 = "-" ∨
        ∃ m : Nat, (compute_durations w r t now).1 = format_duration_ms m) ∧
      ((compute_durations w r t now).2.1 = "-" ∨
        ∃ m : Nat, (compute_durations w r t now).2.1 = format_duration_ms m) ∧
      ((compute_durations w r t now).2.2 = "-" ∨
        ∃ m : Nat, (compute_durations w r t now).2.2 = format_duration_ms m)) ∧
    (∀ w0 r0 t now, 0 < w0 → 0 < r0 → r0 ≤ w0 →
      (compute_durations (some w0) (some r0) t now).1 = format_duration_ms 0) ∧
    (∀ r0 t0 w now, 0 < r0 → 0 < t0 → t0 ≤ r0 →
      (compute_durations w (some r0) (some t0) now).2.1 = format_duration_ms 0) ∧
    (∀ t0 w r now, 0 < t0 → now ≤ t0 →
      (compute_durations w r (some t0) now).2.2 = format_duration_ms 0) := by
  refine ⟨?_, ?_, ?_, ?_⟩
  · intro w r t now
    refine ⟨?_, ?_, ?_⟩
    · rcases hw : w.filter (fun x => decide (0 < x)) with _ | v
      · exact Or.inl (by simp [compute_durations, hw])
      · exact Or.inr ⟨saturating_sub ((r.filter (fun x => decide (0 < x))).getD now) v,
          by simp [compute_durations, hw]⟩
    · rcases hr : r.filter (fun x => decide (0 < x)) with _ | v
      · exact Or.inl (by simp [compute_durations, hr])
      · exact Or.inr ⟨saturating_sub ((t.filter (fun x => decide (0 < x))).getD now) v,
          by simp [compute_durations, hr]⟩
    · rcases ht : t.filter (fun x => decide (0 < x)) with _ | v
      · exact Or.inl (by simp [compute_durations, ht])
      · exact Or.inr ⟨saturating_sub now v, by simp [compute_durations, ht]⟩
  · intro w0 r0 t now hw hr hle
    have h0 : saturating_sub r0 w0 = 0 := Nat.sub_eq_zero_of_le hle
    simp [compute_durations, Option.filter, hw, hr, h0]
  · intro r0 t0 w now hr ht hle
    have h0 : saturating_sub t0 r0 = 0 := Nat.sub_eq_zero_of_le hle
    simp [compute_durations, Option.filter, hr, ht, h0]
  · intro t0 w r now ht hle
    have h0 : saturating_sub now t0 = 0 := Nat.sub_eq_zero_of_le hle
    simp [compute_durations, Option.filter, ht, h0]

/-- C7 witness: with a running instant before the waiting instant, a
termination instant before the running instant, and a termination instant
after `now`, all three durations render as zero milliseconds. -/
theorem durations_never_underflow_witness :
    (compute_durations (some 5) (some 3) none 100).1 = format_duration_ms 0 ∧
    (compute_durations none (some 5) (some 3) 100).2.1 = format_duration_ms 0 ∧
    (compute_durations none none (some 50) 10).2.2 = format_duration_ms 0 :=
  ⟨durations_never_underflow.2.1 5 3 none 100 (by decide) (by decide) (by decide),
   durations_never_underflow.2.2.1 5 3 none 100 (by decide) (by decide) (by decide),
   durations_never_underflow.2.2.2 50 none none 10 (by decide) (by decide)⟩

/-- C8 counterexample: the claim fails on non-ASCII identifiers, because
the source measures and slices UTF-8 bytes, not characters. The 3-character
identifier made of the CJK characters for "Japanese language" has 9 bytes,
so the program takes the shortening branch instead of returning it
unchanged; and the 5-character identifier of five accented `e`s has 10
bytes with byte offset 3 inside a character, so the slice panics. -/
theorem format_id_char_counterexample :
    ("\u65E5\u672C\u8A9E" : String).length ≤ 6 ∧
    format_id (stringUtf8 "\u65E5\u672C\u8A9E") ≠ some (stringUtf8 "\u65E5\u672C\u8A9E") ∧
    ("\u00E9\u00E9\u00E9\u00E9\u00E9" : String).length ≤ 6 ∧
    format_id (stringUtf8 "\u00E9\u00E9\u00E9\u00E9\u00E9") = none := by decide

/-- C8 amended: on the UTF-8 byte sequence of the identifier, a byte
length of at most 6 passes through unchanged; a longer identifier whose
byte offsets `3` and `length - 3` fall on character boundaries splits as
`first3 ++ middle ++ last3` and is shortened to exactly
`first3 ++ ".." ++ last3` (bytewise, which on all-ASCII identifiers is
the first and last 3 characters); any other longer identifier makes the
byte slicing panic. -/
theorem format_id_byte_contract (id : List Nat) :
    (id.length ≤ 6 → format_id id = some id) ∧
    (6 < id.length → isCharBoundary id 3 = true →
      isCharBoundary id (id.length - 3) = true →
      ∃ a m b : List Nat, id = a ++ m ++ b ∧ a.length = 3 ∧ b.length = 3 ∧
        format_id id = some (a ++ [0x2E, 0x2E] ++ b)) ∧
    (6 < id.length →
      (isCharBoundary id 3 = false ∨ isCharBoundary id (id.length - 3) = false) →
      format_id id = none) := by
  refine ⟨?_, ?_, ?_⟩
  · intro h
    simp [format_id, h]
  · intro h h3 h6
    refine ⟨id.take 3, (id.drop 3).take (id.length - 6),
      id.drop (id.length - 3), ?_, ?_, ?_, ?_⟩
    · conv_lhs => rw [← List.take_append_drop 3 id]
      rw [List.append_assoc]
      congr 1
      conv_lhs => rw [← List.take_append_drop (id.length - 6) (id.drop 3)]
      congr 1
      rw [List.drop_drop]
      congr 1
      omega
    · rw [List.length_take]
      omega
    · rw [List.length_drop]
      omega
    · rw [format_id, if_neg (by omega), if_pos (by rw [h3, h6]; rfl)]
  · intro h hb
    rw [format_id, if_neg (by omega)]
    rcases hb with hb | hb <;> simp [hb]

/-- C8 amended witness: a 3-byte identifier passes through unchanged, an
8-byte ASCII identifier is shortened to its first 3 bytes, `".."`, and
its last 3 bytes, and the 10-byte five-accented-`e` identifier panics. -/
theorem format_id_byte_contract_witness :
    format_id (stringUtf8 "abc") = some (stringUtf8 "abc") ∧
    (∃ a m b : List Nat,
      stringUtf8 "abcdefgh" = a ++ m ++ b ∧ a.length = 3 ∧ b.length = 3 ∧
      format_id (stringUtf8 "abcdefgh") = some (a ++ [0x2E, 0x2E] ++ b)) ∧
    format_id (stringUtf8 "\u00E9\u00E9\u00E9\u00E9\u00E9") = none :=
  ⟨(format_id_byte_contract (stringUtf8 "abc")).1 (by decide),
   (format_id_byte_contract (stringUtf8 "abcdefgh")).2.1 (by decide) (by decide)
     (by decide),
   (format_id_byte_contract (stringUtf8 "\u00E9\u00E9\u00E9\u00E9\u00E9")).2.2 (by decide)
     (Or.inl (by decide))⟩

/-- A fixture app sitting in `DetailOpen` with a snapshot of `exJob1`. -/
def detailApp : App :=
  { App.new none with
      commands := [exJob1, exJob2],
      cursor := some 0,
      selected_command := some exJob1 }

/-- C9: while a detail snapshot is open, Enter/Left/Backspace discard the
snapshot (and only the snapshot), every other key leaves the state
entirely unchanged, and no key quits the loop or touches the job list,
filter mode, or cursor. -/
theorem detail_open_input_behaviour (app : App) (cmd : Command)
    (h : app.selected_command = some cmd) (k : Key) :
    ((handleKey app k).1.commands = app.commands ∧
     (handleKey app k).1.filter_mode = app.filter_mode ∧
     (handleKey app k).1.cursor = app.cursor ∧
     (handleKey app k).2 = false) ∧
    ((k = Key.enter ∨ k = Key.left ∨ k = Key.backspace) →
      (handleKey app k).1.selected_command = none) ∧
    (¬(k = Key.enter ∨ k = Key.left ∨ k = Key.backspace) →
      (handleKey app k).1 = app) := by
  cases k <;> simp [handleKey, handleDetailKey, h]

/-- C9 witness: in `detailApp`, Left closes the detail view without
touching the rest of the state, and Down is a complete no-op. -/
theorem detail_open_input_behaviour_witness :
    (handleKey detailApp Key.left).1.selected_command = none ∧
    (handleKey detailApp Key.down).1 = detailApp :=
  ⟨(detail_open_input_behaviour detailApp exJob1 rfl Key.left).2.1
      (Or.inr (Or.inl rfl)),
   (detail_open_input_behaviour detailApp exJob1 rfl Key.down).2.2
      (by simp)⟩

/-- C10: in `Browsing`, the Enter key with no selection, or with a stale
cursor at or past the end of the current filtered list, is a safe no-op:
the state is unchanged and the loop continues. -/
theorem enter_with_stale_cursor_is_noop (app : App)
    (h : app.selected_command = none)
    (hstale : ∀ i, app.cursor = some i → app.filtered_commands.length ≤ i) :
    handleKey app Key.enter = (app, false) := by
  simp only [handleKey, h, handleBrowseKey]
  cases hc : app.cursor with
  | none => rfl
  | some i =>
    have hlen := hstale i hc
    simp [List.getElem?_eq_none hlen]

/-- C10 witness: an app whose cursor is the stale index 5 over an empty
job list ignores Enter entirely. -/
theorem enter_with_stale_cursor_is_noop_witness :
    handleKey { App.new none with cursor := some 5 } Key.enter =
      ({ App.new none with cursor := some 5 }, false) :=
  enter_with_stale_cursor_is_noop _ rfl
    (fun i hi => by
      simp only [App.new] at hi
      cases hi
      decide)

/-- Navigation only rewrites the cursor, so the filtered list is
untouched by `advance`. -/
lemma next_filtered (app : App) :
    app.next.filtered_commands = app.filtered_commands := by
  simp only [App.next]
  split <;> rfl

/-- Navigation only rewrites the cursor, so the filtered list is
untouched by `retreat`. -/
lemma previous_filtered (app : App) :
    app.previous.filtered_commands = app.filtered_commands := by
  simp only [App.previous]
  split <;> rfl

/-- Operation `advance` establishes the cursor invariant from any state, even a
stale one: the wrap test `i >= count - 1` catches every out-of-range
index. -/
lemma next_cursorInvariant (app : App) : cursorInvariant app.next := by
  intro i hi
  rw [next_filtered]
  by_cases h0 : app.filtered_commands.length = 0
  · simp [App.next, h0] at hi
  · simp [App.next, h0] at hi
    cases hc : app.cursor with
    | none => rw [hc] at hi; simp at hi; omega
    | some j =>
      rw [hc] at hi
      simp at hi
      split_ifs at hi <;> omega

/-- Operation `retreat` preserves the cursor invariant. -/
lemma previous_cursorInvariant (app : App) (hinv : cursorInvariant app) :
    cursorInvariant app.previous := by
  intro i hi
  rw [previous_filtered]
  by_cases h0 : app.filtered_commands.length = 0
  · simp [App.previous, h0] at hi
  · simp [App.previous, h0] at hi
    cases hc : app.cursor with
    | none => rw [hc] at hi; simp at hi; omega
    | some j =>
      have hj := hinv j hc
      rw [hc] at hi
      simp at hi
      split_ifs at hi <;> omega

/-- The event trace of the C1 counterexample: a refresh delivers two
`Default`-visible jobs, the user moves the cursor to index 1, then the
next refresh shrinks the collection to nothing. -/
def c1Trace : List Ev :=
  [Ev.refresh (Except.ok [exJob1, exJob2]),
   Ev.key Key.down,
   Ev.key Key.down,
   Ev.refresh (Except.ok [])]

/-- C1 counterexample: the cursor invariant does not hold at every
reachable state — after `c1Trace` the cursor still holds index 1 while
the filtered list is empty, because `refresh_commands` never touches the
table cursor. -/
theorem cursor_invariant_counterexample :
    ¬ cursorInvariant (run (App.new (some ())) c1Trace).1 := by decide

/-- C1 amended: a refresh leaves the cursor exactly as it was (so a
shrinking refresh can leave it past the end of the filtered list), while
every non-mode key input — navigation, detail open/close, quit — does
preserve the cursor invariant. -/
theorem cursor_invariant_amended :
    (∀ (app : App) (r : Except Unit (List Command)),
      (app.refresh_commands r).cursor = app.cursor) ∧
    (∀ (app : App) (k : Key), isModeKey k = false → cursorInvariant app →
      cursorInvariant (handleKey app k).1) := by
  constructor
  · intro app r
    rcases app with ⟨cmds, cur, mode, sel, cl⟩
    cases cl <;> cases r <;> rfl
  · intro app k hk hinv
    rcases app with ⟨cmds, cur, mode, sel, cl⟩
    cases sel with
    | some c => cases k <;> exact hinv
    | none =>
      cases k
      case q => exact hinv
      case down => exact next_cursorInvariant _
      case up => exact previous_cursorInvariant _ hinv
      case enter =>
        simp only [handleKey, handleBrowseKey]
        cases cur with
        | none => exact hinv
        | some i =>
          cases hg : (App.mk cmds (some i) mode none cl).filtered_commands[i]? with
          | none => simp [hg]; exact hinv
          | some cmd =>
            simp [hg]
            intro j hj
            cases hj
            exact hinv i rfl
      case left => exact hinv
      case backspace => exact hinv
      case other => exact hinv
      all_goals exact Bool.noConfusion hk

/-- C1 amended witness: a concrete successful refresh keeps the cursor
value, and a Down press from the empty initial state yields a state
satisfying the cursor invariant. -/
theorem cursor_invariant_amended_witness :
    ((App.new (some ())).refresh_commands (Except.ok [exJob1])).cursor =
      (App.new (some ())).cursor ∧
    cursorInvariant (handleKey (App.new none) Key.down).1 :=
  ⟨cursor_invariant_amended.1 (App.new (some ())) (Except.ok [exJob1]),
   cursor_invariant_amended.2 (App.new none) Key.down (by decide) (by decide)⟩

/-- C2 counterexample: switching to the `Waiting` filter in the empty
initial state yields an empty filtered list, yet the cursor becomes
`some 0` rather than `none` as the claim requires. -/
theorem mode_switch_empty_counterexample :
    (handleKey (App.new none) Key.w).1.filtered_commands.length = 0 ∧
    (handleKey (App.new none) Key.w).1.cursor = some 0 := by decide

/-- C2 amended: every filter-mode-selector input received in `Browsing`
sets the cursor to `some 0` unconditionally — whether or not the filtered
list under the new mode is empty — and never quits the loop. -/
theorem mode_switch_always_selects_zero (app : App) (k : Key)
    (hmode : isModeKey k = true) (h : app.selected_command = none) :
    (handleKey app k).1.cursor = some 0 ∧ (handleKey app k).2 = false := by
  cases k <;> simp_all [handleKey, handleBrowseKey, isModeKey]

/-- C2 amended witness: the `w` selector in the empty initial state sets
the cursor to `some 0`. -/
theorem mode_switch_always_selects_zero_witness :
    (handleKey (App.new none) Key.w).1.cursor = some 0 ∧
    (handleKey (App.new none) Key.w).2 = false :=
  mode_switch_always_selects_zero (App.new none) Key.w rfl rfl
